import Mathlib

/-!
Verification of the Reality Firewall v3 risk-evidence and policy-enforcement
pipeline. Shallow embedding of:

* `apps/gateway/src/lib/canonical.ts` — RFC-8785-style canonical JSON
  (`canonicalize`), hashing helpers, and the Ed25519 `signPayload` /
  `verifySignature` pair (which serialize with plain `JSON.stringify`).
* `contracts/src/ReceiptRegistry.sol` — the on-chain evidence ledger
  (`anchorReceipt` / `_anchor` / `verifyReceipt`).
* `contracts/src/PolicyGuard.sol` — per-market bounded policy enforcement
  (`initMarket` / `enforcePolicy`).
* `apps/gateway/src/services/riskEngine.ts` — deterministic risk scoring
  (`computeRiskScore`) and signal assembly in `buildRiskResult`.
* the CRE workflow main module — the BFT oracle consensus reducer inside
  `runRiskWorkflow`.

Modelling conventions: JavaScript strings are lists of UTF-16 code units
(`List Nat`); JavaScript numbers that the claims exercise are embedded at
rational (for prices/percentages) or integer values, where the source only
compares them or adds integers, so the float/real distinction is immaterial;
EVM `uint8`/`uint256`/`bytes32`/`address` values are `Nat`; Solidity
`mapping`s are total functions with the zero default; `revert` is the
`Except.error` branch of a check-then-commit function, so state is unchanged
on every failure path.
-/

namespace RFW

/-! ## JavaScript string model and lexicographic orders -/

/-- Lexicographic (non-strict) comparison of UTF-16 code-unit sequences.
This is exactly the order ECMAScript `String.prototype.sort`'s default
comparator induces on strings: compare code units left to right, a strict
prefix sorts first. -/
def lexLe : List Nat → List Nat → Bool
  | [], _ => true
  | _ :: _, [] => false
  | a :: as, b :: bs => if a < b then true else if b < a then false else lexLe as bs

/-- Strict version of `lexLe`, used to state byte-order facts. -/
def lexLt : List Nat → List Nat → Bool
  | [], [] => false
  | [], _ :: _ => true
  | _ :: _, [] => false
  | a :: as, b :: bs => if a < b then true else if b < a then false else lexLt as bs

/-- Propositional form of `lexLe` on bare code-unit lists. -/
def unitsLe (a b : List Nat) : Prop := lexLe a b = true

instance : DecidableRel unitsLe := fun a b => by unfold unitsLe; infer_instance

instance : IsTotal (List Nat) unitsLe := by
  constructor
  intro a b
  unfold unitsLe
  induction a generalizing b with
  | nil => left; rfl
  | cons x xs ih =>
    cases b with
    | nil => right; rfl
    | cons y ys =>
      by_cases h1 : x < y
      · left; simp [lexLe, h1]
      · by_cases h2 : y < x
        · right; simp [lexLe, h2]
        · have hxy : x = y := Nat.le_antisymm (Nat.not_lt.mp h2) (Nat.not_lt.mp h1)
          subst hxy
          rcases ih ys with h | h
          · left; simp [lexLe, h1, h]
          · right; simp [lexLe, h1, h]

instance : IsTrans (List Nat) unitsLe := by
  constructor
  intro a b c hab hbc
  unfold unitsLe at hab hbc ⊢
  induction a generalizing b c with
  | nil => rfl
  | cons x xs ih =>
    cases b with
    | nil => simp [lexLe] at hab
    | cons y ys =>
      cases c with
      | nil => simp [lexLe] at hbc
      | cons z zs =>
        simp only [lexLe] at hab hbc ⊢
        by_cases hxy : x < y
        · have hyz : y ≤ z := by
            by_contra hc
            have hzy : z < y := Nat.not_le.mp hc
            simp [Nat.lt_asymm hzy, hzy] at hbc
          have hxz : x < z := Nat.lt_of_lt_of_le hxy hyz
          simp [hxz]
        · by_cases hyx : y < x
          · simp [hxy, hyx] at hab
          · have hxy2 : x = y := Nat.le_antisymm (Nat.not_lt.mp hyx) (Nat.not_lt.mp hxy)
            subst hxy2
            by_cases hyz : x < z
            · simp [hyz]
            · by_cases hzy : z < x
              · simp [hyz, hzy] at hbc
              · simp [hxy, hyx] at hab
                simp [hyz, hzy] at hbc ⊢
                exact ih ys zs hab hbc

instance : IsAntisymm (List Nat) unitsLe := by
  constructor
  intro a b hab hba
  unfold unitsLe at hab hba
  induction a generalizing b with
  | nil =>
    cases b with
    | nil => rfl
    | cons y ys => simp [lexLe] at hba
  | cons x xs ih =>
    cases b with
    | nil => simp [lexLe] at hab
    | cons y ys =>
      by_cases hxy : x < y
      · simp [lexLe, Nat.lt_asymm hxy, hxy] at hba
      · by_cases hyx : y < x
        · simp [lexLe, hxy, hyx] at hab
        · have hxy2 : x = y := Nat.le_antisymm (Nat.not_lt.mp hyx) (Nat.not_lt.mp hxy)
          subst hxy2
          simp [lexLe, hxy] at hab hba
          rw [ih ys hab hba]

/-! ## Canonical JSON value model

The closed value domain of `canonicalize` in `lib/canonical.ts`:
`null`, `undefined` (a present property whose value is `undefined`),
booleans, numbers, strings, arrays and string-keyed objects. Object
members are kept in insertion order, as JavaScript objects enumerate
string keys; a JavaScript object never holds two members with the same
key. Numbers are embedded at integer values, for which the source's
`String(value)` rendering is plain decimal; none of the frozen claims
exercises fractional or non-finite number formatting. -/

inductive JValue where
  | null
  | undef
  | bool (b : Bool)
  | num (n : Int)
  | str (s : List Nat)
  | arr (elems : List JValue)
  | obj (members : List (List Nat × JValue))

/-- Key order used below: compare rendered object entries by their key
(first component) with the JavaScript default string order `lexLe`. -/
def entryLe {β : Type} (p q : List Nat × β) : Prop := lexLe p.1 q.1 = true

instance {β : Type} : DecidableRel (@entryLe β) := fun p q => by
  unfold entryLe; infer_instance

instance {β : Type} : IsTotal (List Nat × β) entryLe := by
  constructor
  intro a b
  exact total_of unitsLe a.1 b.1

instance {β : Type} : IsTrans (List Nat × β) entryLe := by
  constructor
  intro a b c hab hbc
  exact IsTrans.trans (r := unitsLe) a.1 b.1 c.1 hab hbc

/-- Lower-case hex digit as a code unit (used by control-character escapes). -/
def hexDigit (n : Nat) : Nat := if n < 10 then 48 + n else 87 + n

/-- Escaping of one code unit inside a JSON string literal, following
`JSON.stringify`: quote and backslash get a backslash escape, the named
control characters get their two-character escapes, other control
characters become a hexadecimal escape, everything else is emitted
verbatim. (The well-formed-stringify escaping of lone surrogates is not
modelled; all values in this development are well formed.) -/
def escapeUnit (u : Nat) : List Nat :=
  if u = 34 then [92, 34]
  else if u = 92 then [92, 92]
  else if u = 8 then [92, 98]
  else if u = 9 then [92, 116]
  else if u = 10 then [92, 110]
  else if u = 12 then [92, 102]
  else if u = 13 then [92, 114]
  else if u < 32 then [92, 117, 48, 48, hexDigit (u / 16), hexDigit (u % 16)]
  else [u]

/-- JSON string literal for a code-unit sequence: `JSON.stringify(s)`. -/
def jsonQuote (s : List Nat) : List Nat := 34 :: (s.map escapeUnit).flatten ++ [34]

/-- Decimal digits of a natural number, most significant first, as code
units. The first argument is recursion fuel, always passed as `n + 1`,
which is at least the digit count. -/
def natUnitsAux : Nat → Nat → List Nat
  | 0, _ => []
  | fuel + 1, n =>
    if n < 10 then [48 + n] else natUnitsAux fuel (n / 10) ++ [48 + n % 10]

/-- Decimal rendering of a natural number as code units. -/
def natUnits (n : Nat) : List Nat := natUnitsAux (n + 1) n

/-- Decimal rendering of an integer as code units: `String(n)` at an
integer-valued JavaScript number. -/
def intUnits : Int → List Nat
  | .ofNat n => natUnits n
  | .negSucc n => 45 :: natUnits (n + 1)

/-- Comma-separated join, the `join(",")` of a list of rendered pieces. -/
def joinComma : List (List Nat) → List Nat
  | [] => []
  | [x] => x
  | x :: y :: rest => x ++ 44 :: joinComma (y :: rest)

/-- Rendered-member emission for an object: sort the rendered entries by
key with the JavaScript default string order, drop the members whose
value was `undefined`, and emit `"key":value` pieces. Mirrors
`Object.keys(obj).sort()` followed by the `filter`/`map` in
`canonicalize`; carrying each member's rendered value alongside its key
replaces the source's `obj[k]` property lookups (keys are unique). -/
def objEntriesOut (r : List (List Nat × Option (List Nat))) : List (List Nat) :=
  ((List.insertionSort entryLe r).filter (fun p => p.2.isSome)).map
    (fun p => jsonQuote p.1 ++ 58 :: p.2.getD [])

/-- Order in which `canonicalize` emits an object's keys (rendered
entries in, surviving keys out): the sorted-then-filtered key sequence. -/
def objKeyOrder (r : List (List Nat × Option (List Nat))) : List (List Nat) :=
  ((List.insertionSort entryLe r).filter (fun p => p.2.isSome)).map (fun p => p.1)

mutual

/-- Embedding of `canonicalize` from `lib/canonical.ts`, producing the
code units of the canonical serialization: `null` and `undefined` render
as `null`, booleans as `true`/`false`, numbers by decimal `String(value)`,
strings as JSON string literals, arrays element-wise comma-joined in
bracket delimiters, objects with keys sorted by the JavaScript default
string comparison, `undefined`-valued members omitted, as
`"key":value` pairs comma-joined in brace delimiters. -/
def canon : JValue → List Nat
  | .null => [110, 117, 108, 108]
  | .undef => [110, 117, 108, 108]
  | .bool true => [116, 114, 117, 101]
  | .bool false => [102, 97, 108, 115, 101]
  | .num n => intUnits n
  | .str s => jsonQuote s
  | .arr xs => 91 :: joinComma (canonElems xs) ++ [93]
  | .obj l => 123 :: joinComma (objEntriesOut (renderEntries l)) ++ [125]

/-- Canonical serialization of each array element, in original order. -/
def canonElems : List JValue → List (List Nat)
  | [] => []
  | v :: rest => canon v :: canonElems rest

/-- Canonical rendering of each object member, in insertion order,
keeping the key and marking `undefined` values as `none` so they can be
filtered out after sorting (the source's `obj[k] !== undefined`). -/
def renderEntries : List (List Nat × JValue) → List (List Nat × Option (List Nat))
  | [] => []
  | (k, .undef) :: rest => (k, none) :: renderEntries rest
  | (k, v) :: rest => (k, some (canon v)) :: renderEntries rest

end

/-- Value rendering of a single member, the per-entry content of
`renderEntries`. -/
def renderVal : JValue → Option (List Nat)
  | .undef => none
  | v => some (canon v)

/-! ## UTF-16 to UTF-8, for stating byte-order facts -/

/-- Decoding of a UTF-16 code-unit sequence to code points: a high
surrogate followed by a low surrogate combines into a supplementary code
point; everything else passes through. -/
def utf16Decode : List Nat → List Nat
  | [] => []
  | [u] => [u]
  | u :: v :: rest =>
    if 55296 ≤ u ∧ u ≤ 56319 ∧ 56320 ≤ v ∧ v ≤ 57343 then
      (65536 + (u - 55296) * 1024 + (v - 56320)) :: utf16Decode rest
    else
      u :: utf16Decode (v :: rest)

/-- Standard UTF-8 encoding of one code point. -/
def utf8EncodeChar (c : Nat) : List Nat :=
  if c < 128 then [c]
  else if c < 2048 then [192 + c / 64, 128 + c % 64]
  else if c < 65536 then [224 + c / 4096, 128 + c / 64 % 64, 128 + c % 64]
  else [240 + c / 262144, 128 + c / 4096 % 64, 128 + c / 64 % 64, 128 + c % 64]

/-- Raw UTF-8 bytes of a JavaScript string given by its UTF-16 code units. -/
def utf8Bytes (s : List Nat) : List Nat :=
  ((utf16Decode s).map utf8EncodeChar).flatten

/-! ## JSON.stringify and the Ed25519 signing model

`signPayload` and `verifySignature` in `lib/canonical.ts` serialize the
payload with plain `JSON.stringify(payload)`, not with `canonicalize`. -/

mutual

/-- Embedding of `JSON.stringify` on the same value domain: object
members are emitted in insertion order (no key sorting);
`undefined`-valued members are omitted; array holes of value `undefined`
serialize as `null`. -/
def stringify : JValue → List Nat
  | .null => [110, 117, 108, 108]
  | .undef => [110, 117, 108, 108]
  | .bool true => [116, 114, 117, 101]
  | .bool false => [102, 97, 108, 115, 101]
  | .num n => intUnits n
  | .str s => jsonQuote s
  | .arr xs => 91 :: joinComma (stringifyElems xs) ++ [93]
  | .obj l => 123 :: joinComma (stringifyEntries l) ++ [125]

/-- Serialization of each array element, in order. -/
def stringifyElems : List JValue → List (List Nat)
  | [] => []
  | v :: rest => stringify v :: stringifyElems rest

/-- Serialization of object members in insertion order, omitting
`undefined`-valued members as `JSON.stringify` does. -/
def stringifyEntries : List (List Nat × JValue) → List (List Nat)
  | [] => []
  | (_, .undef) :: rest => stringifyEntries rest
  | (k, v) :: rest => (jsonQuote k ++ 58 :: stringify v) :: stringifyEntries rest

end

/-- Symbolic model of a deterministic Ed25519 signature: the node
`crypto.sign`/`crypto.verify` primitives are ideal, so a signature is
identified by exactly the message bytes that were signed together with
the signing key, and verification succeeds precisely when the presented
message and key match the signed ones. -/
structure Ed25519Sig where
  msg : List Nat
  signer : Nat
deriving DecidableEq

/-- Ideal Ed25519 signing primitive over raw message bytes. -/
def ed25519Sign (key : Nat) (msg : List Nat) : Ed25519Sig := ⟨msg, key⟩

/-- Ideal Ed25519 verification primitive over raw message bytes. -/
def ed25519Verify (key : Nat) (msg : List Nat) (sig : Ed25519Sig) : Bool :=
  sig = Ed25519Sig.mk msg key

/-- Embedding of `signPayload`: the signed message is
`Buffer.from(JSON.stringify(payload))`, i.e. the plain-stringified
payload, not its canonical form. -/
def signPayload (key : Nat) (payload : JValue) : Ed25519Sig :=
  ed25519Sign key (stringify payload)

/-- Embedding of `verifySignature`: verifies against
`Buffer.from(JSON.stringify(payload))`. -/
def verifySignature (payload : JValue) (sig : Ed25519Sig) (key : Nat) : Bool :=
  ed25519Verify key (stringify payload) sig

/-! ## ReceiptRegistry.sol — the evidence ledger

`bytes32` and `address` values are `Nat`; `uint8` arguments are `Nat`
constrained to fit a byte where a claim needs it. The receipts mapping is
a total function returning the all-zero `Receipt` for unset keys, which
is Solidity mapping semantics; `_anchor` detects presence through
`timestamp != 0`, and `block.timestamp` is passed in as `now`. -/

/-- Storage layout of `IReceiptRegistry.Receipt`. -/
structure Receipt where
  evidenceHash : Nat
  runIdHash : Nat
  agentId : Nat
  score : Nat
  level : Nat
  isDrill : Bool
  timestamp : Nat
deriving DecidableEq

/-- Zero value of a `Receipt`, the mapping default. -/
def Receipt.zero : Receipt := ⟨0, 0, 0, 0, 0, false, 0⟩

/-- Mutable storage of `ReceiptRegistry`. -/
structure RegistryState where
  receipts : Nat → Receipt
  authorizedAgents : Nat → Bool
  owner : Nat

/-- Custom errors declared by `ReceiptRegistry`. -/
inductive RegistryError where
  | OnlyOwner
  | UnauthorizedAgent (agent : Nat)
  | ReceiptAlreadyExists (evidenceHash : Nat)
  | InvalidSignature
  | ZeroAddress
deriving DecidableEq

/-- Embedding of the internal `_anchor`: reverts with
`ReceiptAlreadyExists` when the slot's timestamp is nonzero, otherwise
stores the full receipt with `timestamp = now`, emits `ReceiptAnchored`
(not modelled) and returns `true`. -/
def anchorStore (s : RegistryState) (now evidenceHash runIdHash agentId score level : Nat)
    (isDrill : Bool) : Except RegistryError (RegistryState × Bool) :=
  if (s.receipts evidenceHash).timestamp ≠ 0 then
    .error (.ReceiptAlreadyExists evidenceHash)
  else
    .ok ({ s with
            receipts := fun h =>
              if h = evidenceHash then
                ⟨evidenceHash, runIdHash, agentId, score, level, isDrill, now⟩
              else s.receipts h },
         true)

/-- Embedding of the external `anchorReceipt`: the `onlyAuthorized`
modifier guards the caller, then `_anchor` runs. -/
def anchorReceipt (s : RegistryState) (caller now evidenceHash runIdHash agentId score level : Nat)
    (isDrill : Bool) : Except RegistryError (RegistryState × Bool) :=
  if ¬ s.authorizedAgents caller then .error (.UnauthorizedAgent caller)
  else anchorStore s now evidenceHash runIdHash agentId score level isDrill

/-- Post-state of an `_anchor` call under EVM revert semantics: a revert
leaves storage exactly as it was. -/
def anchorExec (s : RegistryState) (now evidenceHash runIdHash agentId score level : Nat)
    (isDrill : Bool) : RegistryState :=
  match anchorStore s now evidenceHash runIdHash agentId score level isDrill with
  | .ok (s1, _) => s1
  | .error _ => s

/-- Embedding of the view `verifyReceipt`: true iff the slot is occupied
and its score reaches `minScore`. -/
def verifyReceipt (s : RegistryState) (evidenceHash minScore : Nat) : Bool :=
  (s.receipts evidenceHash).timestamp ≠ 0 ∧ (s.receipts evidenceHash).score ≥ minScore

/-- Fresh registry as the constructor leaves it: the deployer is owner
and the only authorized agent, no receipts stored. -/
def freshRegistry (deployer : Nat) : RegistryState :=
  ⟨fun _ => Receipt.zero, fun a => a = deployer, deployer⟩

/-! ## PolicyGuard.sol — bounded policy enforcement -/

/-- Storage layout of `PolicyGuard.MarketPolicy`. Note the struct has no
cooldown field of any kind. -/
structure MarketPolicy where
  maxLtv : Nat
  minLtv : Nat
  maxCap : Nat
  isFrozen : Bool
  lastUpdate : Nat
deriving DecidableEq

/-- Zero value of a `MarketPolicy`, the mapping default — the state of a
market on which `initMarket` was never called. -/
def MarketPolicy.zero : MarketPolicy := ⟨0, 0, 0, false, 0⟩

/-- Mutable storage of `PolicyGuard` (the immutable registry reference is
passed to `enforcePolicy` explicitly). -/
structure GuardState where
  policies : Nat → MarketPolicy
  authorizedExecutors : Nat → Bool
  owner : Nat

/-- Custom errors declared by `PolicyGuard`. The contract declares no
cooldown-related error. -/
inductive GuardError where
  | UnauthorizedExecutor (executor : Nat)
  | InvalidReceipt (evidenceHash : Nat)
  | BlastRadiusExceeded (param : String)
  | OnlyOwner
deriving DecidableEq

/-- Embedding of `initMarket`: owner-only, writes the full policy record
with `minLtv = 0`, `isFrozen = false`, `lastUpdate = block.timestamp`. -/
def initMarket (g : GuardState) (caller market maxLtv maxCap now : Nat) :
    Except GuardError GuardState :=
  if caller ≠ g.owner then .error .OnlyOwner
  else
    .ok { g with
           policies := fun m =>
             if m = market then ⟨maxLtv, 0, maxCap, false, now⟩ else g.policies m }

/-- Embedding of `enforcePolicy`: `onlyExecutor`, then receipt
verification against the fixed threshold 50, then the two blast-radius
checks, then commit of `isFrozen := freeze`, `lastUpdate := now`. The
function performs no timing or cooldown check and no initialization
check on the market. -/
def enforcePolicy (reg : RegistryState) (g : GuardState)
    (caller market evidenceHash newLtv newCap : Nat) (freeze : Bool) (now : Nat) :
    Except GuardError GuardState :=
  if ¬ g.authorizedExecutors caller then .error (.UnauthorizedExecutor caller)
  else if ¬ verifyReceipt reg evidenceHash 50 then .error (.InvalidReceipt evidenceHash)
  else
    let policy := g.policies market
    if newLtv > policy.maxLtv then .error (.BlastRadiusExceeded "LTV")
    else if newCap > policy.maxCap then .error (.BlastRadiusExceeded "CAP")
    else
      .ok { g with
             policies := fun m =>
               if m = market then { policy with isFrozen := freeze, lastUpdate := now }
               else g.policies m }

/-- Post-state of an `enforcePolicy` call under EVM revert semantics. -/
def enforceExec (reg : RegistryState) (g : GuardState)
    (caller market evidenceHash newLtv newCap : Nat) (freeze : Bool) (now : Nat) : GuardState :=
  match enforcePolicy reg g caller market evidenceHash newLtv newCap freeze now with
  | .ok g1 => g1
  | .error _ => g

/-! ## riskEngine.ts — deterministic scoring and signal assembly -/

/-- The `RiskSignals` record of `services/riskEngine.ts`. -/
structure RiskSignals where
  asset : String
  oraclePrice : ℚ
  dexPrice : ℚ
  divergencePct : ℚ
  stalenessSeconds : ℚ
  liquidityUsd : ℚ
  fundingRate : ℚ
  oracleSource : String
  dexSource : String
deriving DecidableEq

/-- Divergence component of `computeRiskScore` (tiered, max 40). -/
def divComponent (d : ℚ) : Nat :=
  if d > 15 then 40 else if d > 10 then 35 else if d > 5 then 25
  else if d > 2 then 15 else if d > 1 then 8 else 0

/-- Staleness component of `computeRiskScore` (tiered, max 30). -/
def staleComponent (s : ℚ) : Nat :=
  if s > 3600 then 30 else if s > 1800 then 22 else if s > 600 then 15
  else if s > 90 then 7 else 0

/-- Liquidity component of `computeRiskScore` (tiered, max 20). -/
def liqComponent (l : ℚ) : Nat :=
  if l < 100000 then 20 else if l < 500000 then 14 else if l < 1000000 then 8
  else if l < 5000000 then 3 else 0

/-- Funding-rate component of `computeRiskScore` (tiered on `|f|`, max 10). -/
def fundComponent (f : ℚ) : Nat :=
  if |f| > 1/2 then 10 else if |f| > 1/5 then 6 else if |f| > 1/10 then 3 else 0

/-- Score part of `computeRiskScore`: the four tiered components summed
and clamped to at most 100 by `Math.min`. -/
def computeRiskScore (s : RiskSignals) : Nat :=
  min 100 (divComponent s.divergencePct + staleComponent s.stalenessSeconds +
    liqComponent s.liquidityUsd + fundComponent s.fundingRate)

/-- Level mapping of `computeRiskScore` from the clamped score. -/
def riskLevel (score : Nat) : Nat :=
  if score ≥ 75 then 4 else if score ≥ 55 then 3 else if score ≥ 35 then 2
  else if score ≥ 15 then 1 else 0

/-- Embedding of `getVulnerabilityClass`: an ordered if-chain, first
match wins. -/
def getVulnerabilityClass (d s l : ℚ) : String :=
  if d > 10 then "ORACLE_DIVERGENCE_CRITICAL"
  else if d > 3 then "ORACLE_DIVERGENCE_ELEVATED"
  else if s > 3600 then "STALE_FEED_CRITICAL"
  else if s > 600 then "STALE_FEED"
  else if l < 500000 then "THIN_LIQUIDITY_CRITICAL"
  else if l < 2000000 then "THIN_LIQUIDITY"
  else "NOMINAL"

/-- Result of `fetchOraclePrice`. -/
structure OracleFetch where
  price : ℚ
  updatedAt : ℤ
  source : String

/-- Result of `fetchDexPrice`. -/
structure DexFetch where
  price : ℚ
  liquidityUsd : ℚ
  source : String

/-- The `drillOverrides?: Partial<RiskSignals>` argument of
`buildRiskResult`: every field optional; a present field wins over the
computed one because the source spreads `...drillOverrides` after the
computed fields in the `signals` object literal. -/
structure DrillOverrides where
  asset : Option String := none
  oraclePrice : Option ℚ := none
  dexPrice : Option ℚ := none
  divergencePct : Option ℚ := none
  stalenessSeconds : Option ℚ := none
  liquidityUsd : Option ℚ := none
  fundingRate : Option ℚ := none
  oracleSource : Option String := none
  dexSource : Option String := none

/-- The all-absent overrides value: a `check`-mode call, or a drill with
no synthetic stress parameters. -/
def DrillOverrides.none : DrillOverrides := {}

/-- Signal assembly inside `buildRiskResult`: staleness from the oracle
timestamp (30 when the feed reports no positive `updatedAt`), divergence
recomputed as `|((oracle.price - dex.price) / oracle.price)| * 100`, the
ambient `Math.random`-based funding rate passed in as `fundingRate`, and
then the drill overrides spread over the computed fields, present
override fields winning. -/
def buildSignals (asset : String) (oracle : OracleFetch) (dex : DexFetch)
    (now : ℤ) (fundingRate : ℚ) (ov : DrillOverrides) : RiskSignals :=
  let stalenessSeconds : ℚ := if oracle.updatedAt > 0 then max 0 ((now : ℚ) - (oracle.updatedAt : ℚ)) else 30
  let divergencePct : ℚ := |((oracle.price - dex.price) / oracle.price)| * 100
  { asset := ov.asset.getD asset
    oraclePrice := ov.oraclePrice.getD oracle.price
    dexPrice := ov.dexPrice.getD dex.price
    divergencePct := ov.divergencePct.getD divergencePct
    stalenessSeconds := ov.stalenessSeconds.getD stalenessSeconds
    liquidityUsd := ov.liquidityUsd.getD dex.liquidityUsd
    fundingRate := ov.fundingRate.getD fundingRate
    oracleSource := ov.oracleSource.getD oracle.source
    dexSource := ov.dexSource.getD dex.source }

/-! ## CRE workflow — the oracle consensus reducer -/

/-- Per-node result of the oracle read inside `runRiskWorkflow`. -/
structure OracleResult where
  price : ℚ
  updatedAt : ℤ
  staleness : ℤ
  ok : Bool
deriving DecidableEq

/-- Per-node oracle evaluator: a successful EVM read yields the feed
answer with its timestamp; an errored read is caught and contributes the
configured fallback price (so the evaluator never drops out of the
consensus set). The read outcome is the `Option` argument. -/
def nodeOracleRead (timestamp : ℤ) (fallbackPrice : ℚ) :
    Option (ℚ × ℤ) → OracleResult
  | some (answer, updatedAt) => ⟨answer, updatedAt, timestamp - updatedAt, true⟩
  | none => ⟨fallbackPrice, timestamp - 30, 30, false⟩

/-- Price comparison used by the consensus reducer's sort. -/
def priceLe (p q : OracleResult) : Prop := p.price ≤ q.price

instance : DecidableRel priceLe := fun p q => by unfold priceLe; infer_instance

instance : IsTotal OracleResult priceLe := by
  constructor
  intro a b
  unfold priceLe
  exact le_total a.price b.price

instance : IsTrans OracleResult priceLe := by
  constructor
  intro a b c hab hbc
  exact le_trans hab hbc

/-- Ascending stable sort by price, the
`[...results].sort((a, b) => a.price - b.price)` of the reducer. -/
def sortByPrice (l : List OracleResult) : List OracleResult :=
  List.insertionSort priceLe l

/-- The BFT consensus reducer of `runRiskWorkflow`:
`sorted[Math.floor(sorted.length / 2)]` over the full evaluator result
set (`none` only on an empty evaluator set, which the runtime never
produces). -/
def consensusMedian (l : List OracleResult) : Option OracleResult :=
  (sortByPrice l)[(sortByPrice l).length / 2]?

/-! ## Concrete fixtures used by witnesses and counterexamples -/

/-- Registry holding one receipt: evidence hash 5, score 85, level 3,
anchored at time 50; agent 2 is owner and authorized. -/
def regFixture : RegistryState :=
  ⟨fun h => if h = 5 then ⟨5, 6, 7, 85, 3, false, 50⟩ else Receipt.zero,
   fun a => a = 2, 2⟩

/-- Guard with market 3 initialized to `maxLtv = 8000`, `maxCap = 50000`,
`lastUpdate = 100`; executor 4 authorized; every other market is in the
uninitialized all-zero state. -/
def guardFixture : GuardState :=
  ⟨fun m => if m = 3 then ⟨8000, 0, 50000, false, 100⟩ else MarketPolicy.zero,
   fun c => c = 4, 4⟩

/-- Sample signal set matching the spec's HIGH-risk scenario shape. -/
def signalsFixture : RiskSignals :=
  ⟨"WETH", 2780, 2502, 10, 650, 480000, 0, "chainlink-sepolia", "coingecko"⟩

/-- Oracle fetch fixture: price 2500, fresh feed. -/
def oracleFixture : OracleFetch := ⟨2500, 1000, "chainlink-sepolia"⟩

/-- DEX fetch fixture: same price 2500, deep liquidity. -/
def dexFixture : DexFetch := ⟨2500, 10000000, "coingecko"⟩

/-- Drill override fixture that pins `divergencePct` to 50 verbatim. -/
def ovFixture : DrillOverrides := { divergencePct := some 50 }

/-! ## Evidence-ledger claims -/

/-- Claim C1. The claim says a score outside `[0,100]` makes anchoring
fail with `InvalidScore` and create no entry. The contract performs no
score-range validation at all (and declares no `InvalidScore` error, as
the embedded `RegistryError` shows), although the repository's own test
suite expects `InvalidScore` reverts for every score above 100; this
theorem evaluates the code at the failing input: an authorized caller
anchoring `score = 101` on a fresh registry succeeds and the entry is
created with that score. -/
theorem claim_C1_code_behavior_at_invalid_score :
    ∃ s1 : RegistryState,
      anchorReceipt (freshRegistry 1) 1 1000 77 88 7 101 0 false = .ok (s1, true) ∧
      (s1.receipts 77).score = 101 ∧ (s1.receipts 77).timestamp = 1000 := by
  refine ⟨_, rfl, ?_, ?_⟩ <;> simp

/-- Claim C2, counterexample. The claim says a call with
`now < lastUpdateAt + cooldownSeconds` fails with `CooldownActive` before
the ledger lookup and changes no state. `PolicyGuard` has no cooldown
field, no `CooldownActive` error and no timing check: at `now = 130`,
inside the window `130 < 100 + 60` that a 60-second cooldown after the
policy's `lastUpdate = 100` would impose, the call succeeds and updates
`lastUpdate`. -/
theorem claim_C2_counterexample_no_cooldown :
    (130 : Nat) < 100 + 60 ∧
    ∃ g1, enforcePolicy regFixture guardFixture 4 3 5 6000 40000 false 130 = .ok g1 ∧
      (g1.policies 3).lastUpdate = 130 := by
  refine ⟨by norm_num, _, rfl, ?_⟩
  simp

/-- Claim C2, amended. `PolicyGuard` maintains no cooldown state and
performs no cooldown check: whenever the caller holds the executor role,
the receipt verifies at the fixed threshold 50 and both blast-radius
bounds hold, `enforcePolicy` succeeds at every timestamp `now` — in
particular even when `now < lastUpdate + c` for an arbitrary proposed
cooldown `c`. After the authorization check the very first check is the
evidence-ledger lookup. -/
theorem claim_C2_no_cooldown_amended
    (reg : RegistryState) (g : GuardState)
    (caller market eh newLtv newCap : Nat) (freeze : Bool) (now c : Nat)
    (hx : g.authorizedExecutors caller = true)
    (hv : verifyReceipt reg eh 50 = true)
    (hltv : newLtv ≤ (g.policies market).maxLtv)
    (hcap : newCap ≤ (g.policies market).maxCap)
    (hwindow : now < (g.policies market).lastUpdate + c) :
    enforcePolicy reg g caller market eh newLtv newCap freeze now =
      .ok { g with
             policies := fun m =>
               if m = market then
                 { g.policies market with isFrozen := freeze, lastUpdate := now }
               else g.policies m } := by
  unfold enforcePolicy
  rw [if_neg (by simp [hx]), if_neg (by simp [hv]),
    if_neg (Nat.not_lt.mpr hltv), if_neg (Nat.not_lt.mpr hcap)]

/-- Claim C2, witness for the amended theorem: the fixture call inside a
claimed 60-second cooldown window succeeds. -/
theorem claim_C2_no_cooldown_amended_witness :
    guardFixture.authorizedExecutors 4 = true ∧
    verifyReceipt regFixture 5 50 = true ∧
    6000 ≤ (guardFixture.policies 3).maxLtv ∧
    40000 ≤ (guardFixture.policies 3).maxCap ∧
    (130 : Nat) < (guardFixture.policies 3).lastUpdate + 60 ∧
    enforcePolicy regFixture guardFixture 4 3 5 6000 40000 false 130 =
      .ok { guardFixture with
             policies := fun m =>
               if m = 3 then
                 { guardFixture.policies 3 with isFrozen := false, lastUpdate := 130 }
               else guardFixture.policies m } :=
  ⟨by decide, by decide, by decide, by decide, by decide,
   claim_C2_no_cooldown_amended regFixture guardFixture 4 3 5 6000 40000 false 130 60
     (by decide) (by decide) (by decide) (by decide) (by decide)⟩

/-- Claim C3, counterexample. The claim says `newLtv > maxLtv` always
fails with `BlastRadiusExceeded("LTV")` regardless of receipt validity.
The receipt lookup runs first: with an unanchored evidence hash and
`newLtv = 9000 > maxLtv = 8000`, the call fails with `InvalidReceipt`,
a different error. -/
theorem claim_C3_counterexample_receipt_checked_first :
    9000 > (guardFixture.policies 3).maxLtv ∧
    enforcePolicy (freshRegistry 2) guardFixture 4 3 5 9000 40000 false 130 =
      .error (.InvalidReceipt 5) ∧
    GuardError.InvalidReceipt 5 ≠ GuardError.BlastRadiusExceeded "LTV" :=
  ⟨by decide, rfl, by decide⟩

/-- Claim C3, amended. When the caller is an authorized executor and the
supplied evidence hash verifies at threshold 50, a proposal with
`newLtv > maxLtv` fails with `BlastRadiusExceeded("LTV")` and the
`MarketPolicy` is left unchanged (with an invalid receipt the call
instead fails earlier with `InvalidReceipt`, also changing nothing). -/
theorem claim_C3_blast_radius_amended
    (reg : RegistryState) (g : GuardState)
    (caller market eh newLtv newCap : Nat) (freeze : Bool) (now : Nat)
    (hx : g.authorizedExecutors caller = true)
    (hv : verifyReceipt reg eh 50 = true)
    (hltv : newLtv > (g.policies market).maxLtv) :
    enforcePolicy reg g caller market eh newLtv newCap freeze now =
      .error (.BlastRadiusExceeded "LTV") ∧
    enforceExec reg g caller market eh newLtv newCap freeze now = g := by
  have h1 : enforcePolicy reg g caller market eh newLtv newCap freeze now =
      .error (.BlastRadiusExceeded "LTV") := by
    unfold enforcePolicy
    rw [if_neg (by simp [hx]), if_neg (by simp [hv]), if_pos hltv]
  exact ⟨h1, by unfold enforceExec; rw [h1]⟩

/-- Claim C3, witness for the amended theorem: with the anchored
score-85 receipt, the over-bound LTV proposal is rejected with
`BlastRadiusExceeded("LTV")` and the guard state is untouched. -/
theorem claim_C3_blast_radius_amended_witness :
    guardFixture.authorizedExecutors 4 = true ∧
    verifyReceipt regFixture 5 50 = true ∧
    9000 > (guardFixture.policies 3).maxLtv ∧
    (enforcePolicy regFixture guardFixture 4 3 5 9000 40000 false 130 =
      .error (.BlastRadiusExceeded "LTV") ∧
    enforceExec regFixture guardFixture 4 3 5 9000 40000 false 130 = guardFixture) :=
  ⟨by decide, by decide, by decide,
   claim_C3_blast_radius_amended regFixture guardFixture 4 3 5 9000 40000 false 130
     (by decide) (by decide) (by decide)⟩

/-- Claim C5. Write-once anchoring: on any registry state where the
evidence hash's slot is empty, anchored at a positive block timestamp,
the first `_anchor` succeeds; a second `_anchor` of the same hash, with
arbitrary argument values, fails with `ReceiptAlreadyExists` and (by
revert semantics) the ledger after both calls equals the ledger after
the first alone. -/
theorem claim_C5_anchor_write_once
    (s : RegistryState) (t1 t2 eh rh1 a1 sc1 lv1 rh2 a2 sc2 lv2 : Nat) (d1 d2 : Bool)
    (hempty : (s.receipts eh).timestamp = 0) (hpos : 0 < t1) :
    ∃ s1, anchorStore s t1 eh rh1 a1 sc1 lv1 d1 = .ok (s1, true) ∧
      anchorStore s1 t2 eh rh2 a2 sc2 lv2 d2 = .error (.ReceiptAlreadyExists eh) ∧
      anchorExec s1 t2 eh rh2 a2 sc2 lv2 d2 = s1 := by
  have h1 : anchorStore s t1 eh rh1 a1 sc1 lv1 d1 =
      .ok ({ s with receipts := fun h =>
               if h = eh then ⟨eh, rh1, a1, sc1, lv1, d1, t1⟩ else s.receipts h }, true) := by
    unfold anchorStore
    rw [if_neg (by simp [hempty])]
  refine ⟨_, h1, ?_, ?_⟩
  · unfold anchorStore
    rw [if_pos (by simp; omega)]
  · unfold anchorExec anchorStore
    rw [if_pos (by simp; omega)]

/-- Claim C5, witness: concrete double anchoring of hash 3 on a fresh
registry at times 5 and 9. -/
theorem claim_C5_anchor_write_once_witness :
    ((freshRegistry 1).receipts 3).timestamp = 0 ∧ 0 < 5 ∧
    (∃ s1, anchorStore (freshRegistry 1) 5 3 10 7 66 2 false = .ok (s1, true) ∧
      anchorStore s1 9 3 11 8 90 4 true = .error (.ReceiptAlreadyExists 3) ∧
      anchorExec s1 9 3 11 8 90 4 true = s1) :=
  ⟨by decide, by decide,
   claim_C5_anchor_write_once (freshRegistry 1) 5 9 3 10 7 66 2 11 8 90 4 false true
     (by decide) (by decide)⟩

/-- Claim C9. `enforcePolicy` performs no initialization check: on a
market whose policy is still the all-zero default, an authorized
executor holding any anchored receipt with score at least 50 can call
`enforcePolicy` with `newLtv = 0` and `newCap = 0`, and the call
succeeds, setting `isFrozen` and `lastUpdate` on the uninitialized
market. -/
theorem claim_C9_enforce_without_init
    (reg : RegistryState) (g : GuardState) (caller market eh : Nat)
    (freeze : Bool) (now : Nat)
    (huninit : g.policies market = MarketPolicy.zero)
    (hx : g.authorizedExecutors caller = true)
    (hanch : (reg.receipts eh).timestamp ≠ 0)
    (hscore : (reg.receipts eh).score ≥ 50) :
    ∃ g1, enforcePolicy reg g caller market eh 0 0 freeze now = .ok g1 ∧
      g1.policies market = ⟨0, 0, 0, freeze, now⟩ := by
  have hv : verifyReceipt reg eh 50 = true := by
    unfold verifyReceipt
    simp [hanch, hscore]
  refine ⟨{ g with policies := fun m =>
      if m = market then { g.policies market with isFrozen := freeze, lastUpdate := now }
      else g.policies m }, ?_, ?_⟩
  · unfold enforcePolicy
    rw [if_neg (by simp [hx]), if_neg (by simp [hv]),
      if_neg (by rw [huninit]; exact by simp [MarketPolicy.zero]),
      if_neg (by rw [huninit]; exact by simp [MarketPolicy.zero])]
  · simp [huninit, MarketPolicy.zero]

/-- Claim C9, witness: market 9 was never initialized in the fixture,
yet the executor freezes it with the anchored score-85 receipt. -/
theorem claim_C9_enforce_without_init_witness :
    guardFixture.policies 9 = MarketPolicy.zero ∧
    guardFixture.authorizedExecutors 4 = true ∧
    ((regFixture.receipts 5).timestamp ≠ 0 ∧ (regFixture.receipts 5).score ≥ 50) ∧
    (∃ g1, enforcePolicy regFixture guardFixture 4 9 5 0 0 true 200 = .ok g1 ∧
      g1.policies 9 = ⟨0, 0, 0, true, 200⟩) :=
  ⟨by decide, by decide, ⟨by decide, by decide⟩,
   claim_C9_enforce_without_init regFixture guardFixture 4 9 5 true 200
     (by decide) (by decide) (by decide) (by decide)⟩

/-! ## Risk-scoring claims -/

/-- Monotonicity of the divergence component in its tiered thresholds. -/
theorem divComponent_mono {d1 d2 : ℚ} (h : d1 ≤ d2) : divComponent d1 ≤ divComponent d2 := by
  unfold divComponent
  split_ifs <;> first | omega | linarith

/-- Monotonicity of the staleness component in its tiered thresholds. -/
theorem staleComponent_mono {t1 t2 : ℚ} (h : t1 ≤ t2) :
    staleComponent t1 ≤ staleComponent t2 := by
  unfold staleComponent
  split_ifs <;> first | omega | linarith

/-- Antitonicity of the liquidity component: thinner liquidity scores at
least as high. -/
theorem liqComponent_anti {l1 l2 : ℚ} (h : l1 ≤ l2) : liqComponent l2 ≤ liqComponent l1 := by
  unfold liqComponent
  split_ifs <;> first | omega | linarith

/-- Claim C6. The risk score is monotonic non-decreasing in each stress
dimension: holding every other field fixed, increasing `divergencePct`,
increasing `stalenessSeconds`, or decreasing `liquidityUsd` never
decreases `computeRiskScore`. -/
theorem claim_C6_score_monotonic :
    (∀ (s : RiskSignals) (d1 d2 : ℚ), d1 ≤ d2 →
      computeRiskScore { s with divergencePct := d1 } ≤
        computeRiskScore { s with divergencePct := d2 }) ∧
    (∀ (s : RiskSignals) (t1 t2 : ℚ), t1 ≤ t2 →
      computeRiskScore { s with stalenessSeconds := t1 } ≤
        computeRiskScore { s with stalenessSeconds := t2 }) ∧
    (∀ (s : RiskSignals) (l1 l2 : ℚ), l1 ≤ l2 →
      computeRiskScore { s with liquidityUsd := l2 } ≤
        computeRiskScore { s with liquidityUsd := l1 }) := by
  refine ⟨fun s d1 d2 h => ?_, fun s t1 t2 h => ?_, fun s l1 l2 h => ?_⟩ <;>
    · unfold computeRiskScore
      exact min_le_min (le_refl 100) (by
        first
        | exact Nat.add_le_add (Nat.add_le_add (Nat.add_le_add_right
            (divComponent_mono h) _) (le_refl _)) (le_refl _)
        | exact Nat.add_le_add (Nat.add_le_add (Nat.add_le_add_left
            (staleComponent_mono h) _) (le_refl _)) (le_refl _)
        | exact Nat.add_le_add (Nat.add_le_add_left (liqComponent_anti h) _) (le_refl _))

/-- Claim C6, witness: raising divergence from 1 to 3 on the fixture
signal set does not lower the score. -/
theorem claim_C6_score_monotonic_witness :
    (1 : ℚ) ≤ 3 ∧
    computeRiskScore { signalsFixture with divergencePct := 1 } ≤
      computeRiskScore { signalsFixture with divergencePct := 3 } :=
  ⟨by norm_num, claim_C6_score_monotonic.1 signalsFixture 1 3 (by norm_num)⟩

/-- Claim C4, counterexample. The claim says `divergencePct` in the
signal set actually scored always equals
`|oraclePrice - dexPrice| / oraclePrice * 100` over that final set, even
after drill-mode overrides, and is never taken verbatim from an
override. `buildRiskResult` spreads `...drillOverrides` after computing
`divergencePct`, so an override pinning `divergencePct = 50` lands
verbatim in the scored set even though its own prices (2500, 2500) give
divergence 0. -/
theorem claim_C4_counterexample_override_verbatim :
    (buildSignals "WETH" oracleFixture dexFixture 1030 0 ovFixture).divergencePct = 50 ∧
    |((buildSignals "WETH" oracleFixture dexFixture 1030 0 ovFixture).oraclePrice -
        (buildSignals "WETH" oracleFixture dexFixture 1030 0 ovFixture).dexPrice) /
      (buildSignals "WETH" oracleFixture dexFixture 1030 0 ovFixture).oraclePrice| * 100 = 0 ∧
    (50 : ℚ) ≠ 0 := by
  refine ⟨rfl, ?_, by norm_num⟩
  show |((2500 : ℚ) - 2500) / 2500| * 100 = 0
  norm_num

/-- Claim C4, amended. In the signal set assembled by `buildRiskResult`,
`divergencePct` equals `|(oraclePrice - dexPrice) / oraclePrice| * 100`
computed from the set's final `oraclePrice` and `dexPrice` whenever the
drill overrides leave `oraclePrice`, `dexPrice` and `divergencePct`
unset (in particular in every non-drill evaluation); an override of any
of these three fields is spread over the computed value verbatim, after
the recomputation. -/
theorem claim_C4_divergence_recompute_amended
    (asset : String) (oracle : OracleFetch) (dex : DexFetch)
    (now : ℤ) (fundingRate : ℚ) (ov : DrillOverrides)
    (hop : ov.oraclePrice = Option.none)
    (hdp : ov.dexPrice = Option.none)
    (hdiv : ov.divergencePct = Option.none) :
    (buildSignals asset oracle dex now fundingRate ov).divergencePct =
      |((buildSignals asset oracle dex now fundingRate ov).oraclePrice -
          (buildSignals asset oracle dex now fundingRate ov).dexPrice) /
        (buildSignals asset oracle dex now fundingRate ov).oraclePrice| * 100 := by
  unfold buildSignals
  simp [hop, hdp, hdiv]

/-- Claim C4, witness for the amended theorem: a no-override evaluation
on the fixtures satisfies the recomputation invariant. -/
theorem claim_C4_divergence_recompute_amended_witness :
    DrillOverrides.none.oraclePrice = Option.none ∧
    DrillOverrides.none.dexPrice = Option.none ∧
    DrillOverrides.none.divergencePct = Option.none ∧
    (buildSignals "WETH" oracleFixture dexFixture 1030 0 DrillOverrides.none).divergencePct =
      |((buildSignals "WETH" oracleFixture dexFixture 1030 0 DrillOverrides.none).oraclePrice -
          (buildSignals "WETH" oracleFixture dexFixture 1030 0 DrillOverrides.none).dexPrice) /
        (buildSignals "WETH" oracleFixture dexFixture 1030 0 DrillOverrides.none).oraclePrice| *
        100 :=
  ⟨rfl, rfl, rfl,
   claim_C4_divergence_recompute_amended "WETH" oracleFixture dexFixture 1030 0
     DrillOverrides.none rfl rfl rfl⟩

/-! ## Canonicalizer claims -/

/-- Rendered object members are the entry-wise image of `renderVal`. -/
theorem renderEntries_eq_map :
    ∀ l : List (List Nat × JValue),
      renderEntries l = l.map (fun kv => (kv.1, renderVal kv.2)) := by
  intro l
  induction l with
  | nil => simp [renderEntries]
  | cons kv t ih =>
    obtain ⟨k, v⟩ := kv
    cases v <;> simp [renderEntries, renderVal, ih]

/-- Rendering preserves the key sequence. -/
theorem renderEntries_keys (l : List (List Nat × JValue)) :
    (renderEntries l).map Prod.fst = l.map Prod.fst := by
  rw [renderEntries_eq_map]
  simp

/-- Two key-sorted lists that are permutations of each other and have no
duplicate keys are equal (sorting by key determines the arrangement when
keys are unique, even though `entryLe` ignores the values). -/
theorem sortedKeyed_eq_of_perm {β : Type} :
    ∀ (l1 l2 : List (List Nat × β)), List.Perm l1 l2 →
      (l1.map Prod.fst).Nodup → l1.Sorted entryLe → l2.Sorted entryLe → l1 = l2 := by
  intro l1
  induction l1 with
  | nil =>
    intro l2 hp _ _ _
    exact hp.nil_eq
  | cons x t1 ih =>
    intro l2 hp hn hs1 hs2
    rw [List.map_cons] at hn
    cases l2 with
    | nil =>
      rw [List.perm_nil] at hp
      exact absurd hp (by simp)
    | cons y t2 =>
      by_cases hxy : x = y
      · subst hxy
        have ht : t1 = t2 :=
          ih t2 hp.cons_inv (List.nodup_cons.mp hn).2
            hs1.of_cons hs2.of_cons
        rw [ht]
      · exfalso
        have hx2t : x ∈ t2 := by
          rcases List.mem_cons.mp (hp.subset (List.mem_cons_self x t1)) with h | h
          · exact absurd h hxy
          · exact h
        have hy1t : y ∈ t1 := by
          rcases List.mem_cons.mp (hp.symm.subset (List.mem_cons_self y t2)) with h | h
          · exact absurd h.symm hxy
          · exact h
        have h1 : entryLe x y := List.rel_of_sorted_cons hs1 y hy1t
        have h2 : entryLe y x := List.rel_of_sorted_cons hs2 x hx2t
        have hkey : x.1 = y.1 := antisymm (r := unitsLe) h1 h2
        have hn2 := List.nodup_cons.mp hn
        apply hn2.1
        rw [hkey]
        exact List.mem_map_of_mem Prod.fst hy1t

/-- Claim C7, counterexample. The claim says `canonicalize` sorts keys
lexicographically by raw UTF-8 byte value. The source sorts with the
JavaScript default string comparison, which compares UTF-16 code units:
for the keys U+E000 (code units `[57344]`, UTF-8 `EE 80 80`) and
U+10000 (code units `[55296, 56320]`, UTF-8 `F0 90 80 80`), UTF-8 byte
order puts U+E000 first, yet `canonicalize` emits U+10000 first. -/
theorem claim_C7_counterexample_utf16_order :
    objKeyOrder (renderEntries [([57344], .num 1), ([55296, 56320], .num 2)]) =
      [[55296, 56320], [57344]] ∧
    lexLt (utf8Bytes [57344]) (utf8Bytes [55296, 56320]) = true ∧
    canon (.obj [([57344], .num 1), ([55296, 56320], .num 2)]) =
      123 :: (jsonQuote [55296, 56320] ++ 58 :: intUnits 2) ++
        44 :: (jsonQuote [57344] ++ 58 :: intUnits 1) ++ [125] := by
  refine ⟨by decide, by decide, by decide⟩

/-- Claim C7, amended. `canonicalize` emits a map's key/value pairs with
keys sorted by UTF-16 code-unit value (the JavaScript default string
order, not locale-aware), which coincides with raw UTF-8 byte order for
keys confined to the basic multilingual plane but not in general; it
omits keys whose value is absent (`undefined`) while keeping keys whose
value is `null`; and it produces byte-identical output for all insertion
orders of the same key/value set. The first conjunct is insertion-order
invariance for arbitrary duplicate-free member lists; the second
exercises sorting, the omission of an `undefined` member and the keeping
of a `null` member on the map
`{"b": null, "a": undefined, "c": 1}`, canonicalized as
`{"b":null,"c":1}`. -/
theorem claim_C7_canonical_maps_amended :
    (∀ l1 l2 : List (List Nat × JValue), List.Perm l1 l2 → (l1.map Prod.fst).Nodup →
      canon (.obj l1) = canon (.obj l2)) ∧
    canon (.obj [([98], .null), ([97], .undef), ([99], .num 1)]) =
      [123, 34, 98, 34, 58, 110, 117, 108, 108, 44, 34, 99, 34, 58, 49, 125] := by
  constructor
  · intro l1 l2 hp hn
    have hperm : List.Perm (renderEntries l1) (renderEntries l2) := by
      rw [renderEntries_eq_map, renderEntries_eq_map]
      exact hp.map _
    have hkeysperm :
        List.Perm ((List.insertionSort entryLe (renderEntries l1)).map Prod.fst)
          (l1.map Prod.fst) := by
      have h := (List.perm_insertionSort entryLe (renderEntries l1)).map Prod.fst
      rwa [renderEntries_keys] at h
    have hsort : List.insertionSort entryLe (renderEntries l1) =
        List.insertionSort entryLe (renderEntries l2) :=
      sortedKeyed_eq_of_perm _ _
        ((List.perm_insertionSort _ _).trans
          (hperm.trans (List.perm_insertionSort _ _).symm))
        (hkeysperm.symm.nodup hn)
        (List.sorted_insertionSort entryLe _)
        (List.sorted_insertionSort entryLe _)
    simp only [canon, objEntriesOut, hsort]
  · decide

/-- Claim C7, witness for the amended theorem: two insertion orders of
the same three-member map (duplicate-free keys) canonicalize to
identical bytes. -/
theorem claim_C7_canonical_maps_amended_witness :
    List.Perm [([98], JValue.null), ([97], JValue.undef), ([99], JValue.num 1)]
      [([99], JValue.num 1), ([98], JValue.null), ([97], JValue.undef)] ∧
    (([([98], JValue.null), ([97], JValue.undef), ([99], JValue.num 1)] :
        List (List Nat × JValue)).map Prod.fst).Nodup ∧
    canon (.obj [([98], .null), ([97], .undef), ([99], .num 1)]) =
      canon (.obj [([99], .num 1), ([98], .null), ([97], .undef)]) :=
  ⟨(List.perm_append_comm :
      ([([98], JValue.null), ([97], JValue.undef)] ++ [([99], JValue.num 1)]).Perm
        ([([99], JValue.num 1)] ++ [([98], JValue.null), ([97], JValue.undef)])),
   by decide,
   claim_C7_canonical_maps_amended.1
     [([98], .null), ([97], .undef), ([99], .num 1)]
     [([99], .num 1), ([98], .null), ([97], .undef)]
     (List.perm_append_comm :
       ([([98], JValue.null), ([97], JValue.undef)] ++ [([99], JValue.num 1)]).Perm
         ([([99], JValue.num 1)] ++ [([98], JValue.null), ([97], JValue.undef)]))
     (by decide)⟩

/-! ## Consensus-reducer claim -/

/-- Claim C8. Over any nonempty evaluator outcome list — where an
errored evaluator contributes the configured fallback value through
`nodeOracleRead` instead of being dropped, so the reduced list keeps the
constant evaluator count — the consensus reducer returns the element at
index `floor(N / 2)` of the list sorted ascending by price. In the
spec's median-of-5 scenario with two fallbacks at price 2820 and
successes at 2700, 2950 and 2600, the result is the middle of the full
sorted 5-element set (price 2820, a fallback), not the middle of the 3
successes alone (price 2700). -/
theorem claim_C8_consensus_median :
    (∀ (ts : ℤ) (fb : ℚ) (outcomes : List (Option (ℚ × ℤ))), outcomes ≠ [] →
      (outcomes.map (nodeOracleRead ts fb)).length = outcomes.length ∧
      ∃ hlt : (outcomes.map (nodeOracleRead ts fb)).length / 2 <
          (sortByPrice (outcomes.map (nodeOracleRead ts fb))).length,
        consensusMedian (outcomes.map (nodeOracleRead ts fb)) =
          some ((sortByPrice (outcomes.map (nodeOracleRead ts fb))).get
            ⟨(outcomes.map (nodeOracleRead ts fb)).length / 2, hlt⟩)) ∧
    (consensusMedian ([some (2700, 1990), none, some (2950, 1980), none,
        some (2600, 1995)].map (nodeOracleRead 2000 2820))).map (fun r => r.price) =
      some 2820 ∧
    (consensusMedian ([some (2700, 1990), some (2950, 1980),
        some (2600, 1995)].map (nodeOracleRead 2000 2820))).map (fun r => r.price) =
      some 2700 ∧
    (consensusMedian ([some (2700, 1990), none, some (2950, 1980), none,
        some (2600, 1995)].map (nodeOracleRead 2000 2820))).map (fun r => r.ok) =
      some false := by
  refine ⟨fun ts fb outcomes hne => ?_, by decide, by decide, by decide⟩
  have hlen : (sortByPrice (outcomes.map (nodeOracleRead ts fb))).length =
      (outcomes.map (nodeOracleRead ts fb)).length :=
    (List.perm_insertionSort priceLe _).length_eq
  have hpos : 0 < (outcomes.map (nodeOracleRead ts fb)).length := by
    simpa [List.length_pos] using hne
  have hlt : (outcomes.map (nodeOracleRead ts fb)).length / 2 <
      (sortByPrice (outcomes.map (nodeOracleRead ts fb))).length := by
    rw [hlen]
    exact Nat.div_lt_self hpos (by norm_num)
  refine ⟨by simp, hlt, ?_⟩
  unfold consensusMedian
  have hidx : (sortByPrice (outcomes.map (nodeOracleRead ts fb))).length / 2 =
      (outcomes.map (nodeOracleRead ts fb)).length / 2 := by rw [hlen]
  conv_lhs => rw [hidx]
  rw [List.getElem?_eq_getElem hlt]
  simp [List.get_eq_getElem]

/-- Claim C8, witness: the general part of the theorem applied to the
concrete 5-evaluator scenario list. -/
theorem claim_C8_consensus_median_witness :
    ([some (2700, 1990), none, some (2950, 1980), none, some (2600, 1995)] :
        List (Option (ℚ × ℤ))) ≠ [] ∧
    (([some (2700, 1990), none, some (2950, 1980), none, some (2600, 1995)] :
        List (Option (ℚ × ℤ))).map (nodeOracleRead 2000 2820)).length = 5 ∧
    (∃ hlt : (([some (2700, 1990), none, some (2950, 1980), none, some (2600, 1995)] :
          List (Option (ℚ × ℤ))).map (nodeOracleRead 2000 2820)).length / 2 <
        (sortByPrice (([some (2700, 1990), none, some (2950, 1980), none,
          some (2600, 1995)] : List (Option (ℚ × ℤ))).map (nodeOracleRead 2000 2820))).length,
      consensusMedian (([some (2700, 1990), none, some (2950, 1980), none,
          some (2600, 1995)] : List (Option (ℚ × ℤ))).map (nodeOracleRead 2000 2820)) =
        some ((sortByPrice (([some (2700, 1990), none, some (2950, 1980), none,
          some (2600, 1995)] : List (Option (ℚ × ℤ))).map (nodeOracleRead 2000 2820))).get
          ⟨(([some (2700, 1990), none, some (2950, 1980), none, some (2600, 1995)] :
            List (Option (ℚ × ℤ))).map (nodeOracleRead 2000 2820)).length / 2, hlt⟩)) :=
  ⟨by decide, by decide,
   (claim_C8_consensus_median.1 2000 2820
     [some (2700, 1990), none, some (2950, 1980), none, some (2600, 1995)]
     (by decide)).2⟩

/-! ## Signature-serialization claim -/

/-- Claim C10. `signPayload` and `verifySignature` serialize with plain
`JSON.stringify`, not with `canonicalize`: the two payloads below are
equal as maps (identical canonical form) but differ in key insertion
order, and the signature produced over the first fails verification
against the second while verifying against the first — signature
validity depends on insertion order, not only on canonical content. -/
theorem claim_C10_signature_insertion_order :
    canon (.obj [([97], .num 1), ([98], .num 2)]) =
      canon (.obj [([98], .num 2), ([97], .num 1)]) ∧
    stringify (.obj [([97], .num 1), ([98], .num 2)]) ≠
      stringify (.obj [([98], .num 2), ([97], .num 1)]) ∧
    verifySignature (.obj [([98], .num 2), ([97], .num 1)])
      (signPayload 9 (.obj [([97], .num 1), ([98], .num 2)])) 9 = false ∧
    verifySignature (.obj [([97], .num 1), ([98], .num 2)])
      (signPayload 9 (.obj [([97], .num 1), ([98], .num 2)])) 9 = true := by
  refine ⟨by decide, by decide, by decide, by decide⟩

end RFW
